import Mathlib

/-!
Shallow embedding of basil's concurrent multi-endpoint aggregation engine:
`basil/client.py` (ConnectionManager, SensuConnection, SensuResource) and
`basil/ui/widgets/base_resource_list.py` (BaseResourceListWidget) together
with the concrete sort keys of `checks/check_list.py` and
`events/event_list.py`. Python dicts are modelled as insertion-ordered
association lists, Python's stable `list.sort` as `List.insertionSort`, and
exceptions as `Except`.
-/

namespace Basil

/-- A configured connection, as built by `SensuConnection.__init__` in
`basil/client.py`. Only the fields read by the aggregation logic are kept:
the unique `name` and the namespace string (field `nspace`, since
`namespace` is a Lean keyword). -/
structure SensuConnection where
  name : String
  nspace : String := "default"
  deriving DecidableEq, Repr

/-- `SensuResource` from `basil/client.py`: one raw item (`data`) wrapped
with the name of the connection it came from. The payload type is a
parameter. -/
structure SensuResource (α : Type) where
  data : α
  connection_name : String
  deriving DecidableEq, Repr

/-- Whether an `Except` value is a success (a Python call that did not
raise). -/
def exceptOk {ε β : Type} : Except ε β → Bool
  | Except.ok _ => true
  | Except.error _ => false

/-- The per-connection loop of `ConnectionManager.get_all`: for each
connection call the resource class fetch (the `resource_class.get` call,
given here as the oracle `fetch`), wrap the returned items with the
connection name, and count successes and errors. Returns
`(all_items, success_count, error_count)` with items in connection order. -/
def fetchAccum {α : Type} (fetch : SensuConnection → Except String (List α)) :
    List SensuConnection → List (SensuResource α) × Nat × Nat
  | [] => ([], 0, 0)
  | c :: cs =>
    let rest := fetchAccum fetch cs
    match fetch c with
    | Except.ok items =>
        (items.map (fun a => ⟨a, c.name⟩) ++ rest.1, rest.2.1 + 1, rest.2.2)
    | Except.error _ => (rest.1, rest.2.1, rest.2.2 + 1)

/-- `ConnectionManager.get_all` from `basil/client.py`. `validType` models
whether `resource_type` is a key of `resource_map` (unknown types return an
empty list before any fetch). After the loop, if `success_count == 0 and
error_count > 0` the distinguished total-failure value `None` is returned,
otherwise the accumulated wrapped items. -/
def get_all {α : Type} (validType : Bool)
    (fetch : SensuConnection → Except String (List α))
    (conns : List SensuConnection) : Option (List (SensuResource α)) :=
  if validType then
    let r := fetchAccum fetch conns
    if r.2.1 = 0 ∧ 0 < r.2.2 then none else some r.1
  else
    some []

/-- One entry of the `connections:` list of the configuration dictionary
consumed by `ConnectionManager._load_connections`. Absent keys are `none`
(Python `dict.get` returning `None`). -/
structure ConnEntry where
  name : Option String := none
  url : Option String := none
  api_key : Option String := none
  username : Option String := none
  password : Option String := none
  nspace : Option String := none
  deriving DecidableEq, Repr

/-- Python truthiness of an optional string: `None` and the empty string
are falsy. -/
def truthy : Option String → Bool
  | none => false
  | some s => decide (s ≠ "")

/-- The authentication part of `SensuConnection.__init__`: a truthy
`api_key` raises `NotImplementedError`; otherwise truthy `username` and
`password` log in successfully; otherwise a `ValueError` is raised. -/
def mkSensuConnection (e : ConnEntry) (name : String) :
    Except String SensuConnection :=
  if truthy e.api_key then
    Except.error "NotImplementedError: API key authentication is not yet supported by fawlty"
  else if truthy e.username && truthy e.password then
    Except.ok ⟨name, e.nspace.getD "default"⟩
  else
    Except.error "ValueError: Either api_key or username/password must be provided"

/-- Assignment `d[k] = v` on an insertion-ordered Python dict: an existing
key keeps its position and gets the new value, a new key is appended. -/
def dictInsert {β : Type} : List (String × β) → String → β → List (String × β)
  | [], k, v => [(k, v)]
  | (k', v') :: rest, k, v =>
    if k' = k then (k', v) :: rest else (k', v') :: dictInsert rest k v

/-- The loop of `ConnectionManager._load_connections`: entries whose `name`
is missing or falsy are skipped with `continue`; for the rest a
`SensuConnection` is constructed (any exception aborts the whole build) and
stored under its name (last duplicate wins). -/
def loadConnectionsGo (acc : List (String × SensuConnection)) :
    List ConnEntry → Except String (List (String × SensuConnection))
  | [] => Except.ok acc
  | e :: rest =>
    match e.name with
    | none => loadConnectionsGo acc rest
    | some n =>
      if n = "" then loadConnectionsGo acc rest
      else
        match mkSensuConnection e n with
        | Except.ok conn => loadConnectionsGo (dictInsert acc n conn) rest
        | Except.error msg => Except.error msg

/-- `ConnectionManager._load_connections` (as run by
`ConnectionManager.__init__`) over the `connections:` entries. -/
def loadConnections (entries : List ConnEntry) :
    Except String (List (String × SensuConnection)) :=
  loadConnectionsGo [] entries

/-- A two-entry demo configuration: the first entry has no name at all, the
second is a fully valid username/password entry. -/
def demoEntries : List ConnEntry :=
  [{ url := some "https://sensu.orphan.example.com",
     username := some "user", password := some "secret" },
   { name := some "dev", url := some "https://sensu.dev.example.com",
     username := some "user", password := some "secret" }]

/-! ## The resource list widget (`basil/ui/widgets/base_resource_list.py`)

`BaseResourceListWidget` state and methods. Subclass-supplied behaviour
(`get_sort_key`, `apply_default_sort`) is a `Kind` record: `keyLe col a b`
decides whether `get_sort_key(a, col) <= get_sort_key(b, col)` and
`defaultSort` is `apply_default_sort` as a function on the resource list
(the base-class default is the identity). `displayed` is the row sequence
the table shows after the last `clear()`/`add_row` pass. -/

/-- Per-resource-kind behaviour supplied by a `BaseResourceListWidget`
subclass. -/
structure Kind (ρ : Type) where
  keyLe : Nat → ρ → ρ → Bool
  defaultSort : List ρ → List ρ

/-- Python's stable `list.sort(key=..., reverse=...)` as insertion sort:
with `reverse=True` the comparison is flipped but equal keys still keep
their original relative order. -/
def pySortRel {ρ : Type} (le : ρ → ρ → Bool) (rev : Bool) (l : List ρ) : List ρ :=
  if rev then List.insertionSort (fun a b => le b a = true) l
  else List.insertionSort (fun a b => le a b = true) l

/-- `BaseResourceListWidget._sort_resources(column_index, reverse)`:
stable-sorts the resource list by the subclass sort key of the column. -/
def sort_resources {ρ : Type} (k : Kind ρ) (col : Nat) (rev : Bool)
    (l : List ρ) : List ρ :=
  pySortRel (k.keyLe col) rev l

/-- The widget state: the `__init__` fields of `BaseResourceListWidget`
that the aggregation and sorting logic reads, plus `displayed` for the
visible row sequence. `pending_results` is the insertion-ordered dict
`connection name -> fetched resources`. -/
structure WState (ρ : Type) where
  resources : List ρ := []
  sort_column : Option Nat := none
  sort_reverse : Bool := false
  using_default_sort : Bool := false
  initial_sort_applied : Bool := false
  pending_results : List (String × List ρ) := []
  completed_worker_count : Nat := 0
  expected_worker_count : Nat := 0
  is_loading : Bool := false
  batch_timer : Bool := false
  displayed : List ρ := []
  deriving DecidableEq, Repr

/-- The widget state right after `__init__`. -/
def initWState {ρ : Type} : WState ρ := {}

/-- `BaseResourceListWidget.load_resources(resources)`: store the data,
preprocess (a no-op in the base class), then either re-apply the default
sort, re-apply the pinned explicit sort, or apply the default sort for the
first time and enter default-sort mode; finally re-fill the table rows. -/
def load_resources {ρ : Type} (k : Kind ρ) (s : WState ρ) (data : List ρ) :
    WState ρ :=
  let s1 := { s with resources := data }
  if s1.using_default_sort then
    let sorted := k.defaultSort s1.resources
    { s1 with resources := sorted, displayed := sorted }
  else
    match s1.sort_column with
    | some col =>
      let sorted := sort_resources k col s1.sort_reverse s1.resources
      { s1 with resources := sorted, displayed := sorted }
    | none =>
      let sorted := k.defaultSort s1.resources
      { s1 with resources := sorted, displayed := sorted,
                using_default_sort := true, initial_sort_applied := true }

/-- `BaseResourceListWidget.cancel_workers`: cancel active workers (a
trace-level effect), stop loading, stop a pending batch timer. -/
def cancel_workers {ρ : Type} (s : WState ρ) : WState ρ :=
  { s with is_loading := false, batch_timer := false }

/-- `BaseResourceListWidget.load_resources_parallel`: cancel the previous
generation, reset the accumulator and counters, mark loading, and clear the
table to a placeholder row (spawning one worker per connection and arming
the timeout timer are trace-level effects). -/
def load_resources_parallel {ρ : Type} (s : WState ρ)
    (connNames : List String) : WState ρ :=
  let s1 := cancel_workers s
  let s2 := { s1 with pending_results := [], completed_worker_count := 0,
                      expected_worker_count := connNames.length,
                      is_loading := true }
  { s2 with displayed := [] }

/-- The `all_resources` accumulation of `_flush_updates` and
`_finalize_load`: concatenate the per-connection result lists in dict
(arrival) order. -/
def combineResults {ρ : Type} (pending : List (String × List ρ)) : List ρ :=
  pending.foldl (fun acc p => acc ++ p.2) []

/-- `BaseResourceListWidget._finalize_load`: stop the batch timer, load the
combined results into the table, then clear the loading flag and the
accumulator. -/
def finalize_load {ρ : Type} (k : Kind ρ) (s : WState ρ) : WState ρ :=
  let s1 := { s with batch_timer := false }
  let s2 := load_resources k s1 (combineResults s1.pending_results)
  { s2 with is_loading := false, pending_results := [] }

/-- `BaseResourceListWidget._flush_updates`: the debounce flush; clears the
timer flag, and if still loading pushes the currently accumulated results
to the table (without finalizing). -/
def flush_updates {ρ : Type} (k : Kind ρ) (s : WState ρ) : WState ρ :=
  let s1 := { s with batch_timer := false }
  if s1.is_loading then load_resources k s1 (combineResults s1.pending_results)
  else s1

/-- `BaseResourceListWidget._timeout_handler`: on deadline, finalize with
whatever has accumulated if the generation is still loading. -/
def timeout_handler {ρ : Type} (k : Kind ρ) (s : WState ρ) : WState ρ :=
  if s.is_loading then finalize_load k s else s

/-- A worker completion as seen by `on_worker_state_changed`: either
`WorkerState.SUCCESS` carrying `(connection_name, resources)` or
`WorkerState.ERROR`. -/
inductive WorkerOutcome (ρ : Type) where
  | success (name : String) (results : List ρ)
  | error
  deriving DecidableEq, Repr

/-- `BaseResourceListWidget.on_worker_state_changed`: ignore events while
not loading; on success record the result in the accumulator and bump the
completed count; on error only bump the count (the failure is logged, not
recorded); finalize when the count reaches the expected count, otherwise
arm the batch timer if none is armed. -/
def on_worker_state_changed {ρ : Type} (k : Kind ρ) (s : WState ρ) :
    WorkerOutcome ρ → WState ρ
  | WorkerOutcome.success n rs =>
    if s.is_loading then
      let s1 := { s with pending_results := dictInsert s.pending_results n rs,
                         completed_worker_count := s.completed_worker_count + 1 }
      if s1.expected_worker_count ≤ s1.completed_worker_count then
        finalize_load k s1
      else if s1.batch_timer then s1 else { s1 with batch_timer := true }
    else s
  | WorkerOutcome.error =>
    if s.is_loading then
      let s1 := { s with completed_worker_count := s.completed_worker_count + 1 }
      if s1.expected_worker_count ≤ s1.completed_worker_count then
        finalize_load k s1
      else s1
    else s

/-- An event delivered to the widget during one generation: a worker state
change, the debounce flush timer, or the deadline timer. -/
inductive GEv (ρ : Type) where
  | worker (o : WorkerOutcome ρ)
  | flushTimer
  | timeout
  deriving DecidableEq, Repr

/-- One delivered event. -/
def gstep {ρ : Type} (k : Kind ρ) (s : WState ρ) : GEv ρ → WState ρ
  | GEv.worker o => on_worker_state_changed k s o
  | GEv.flushTimer => flush_updates k s
  | GEv.timeout => timeout_handler k s

/-- A sequence of delivered events. -/
def run_events {ρ : Type} (k : Kind ρ) (s : WState ρ) (evs : List (GEv ρ)) :
    WState ρ :=
  evs.foldl (gstep k) s

/-- The connection names currently represented in the accumulator. -/
def pending_conns {ρ : Type} (s : WState ρ) : List String :=
  s.pending_results.map Prod.fst

/-- `BaseResourceListWidget.on_data_table_header_selected`: a header click
leaves default-sort mode, flips the direction when the active column is
clicked again or pins the new column ascending, then sorts and reloads. -/
def on_data_table_header_selected {ρ : Type} (k : Kind ρ) (s : WState ρ)
    (col : Nat) : WState ρ :=
  let s1 := { s with using_default_sort := false }
  let s2 :=
    if s1.sort_column = some col then { s1 with sort_reverse := !s1.sort_reverse }
    else { s1 with sort_column := some col, sort_reverse := false }
  let s3 := { s2 with resources := sort_resources k col s2.sort_reverse s2.resources }
  load_resources k s3 s3.resources

/-- A kind whose `get_sort_key` maps a resource and a column index into a
linearly ordered key type, as the subclasses do (ints for numeric columns,
lowercased strings otherwise). -/
def keyedKind {ρ κ : Type} [LinearOrder κ] (key : ρ → Nat → κ)
    (dflt : List ρ → List ρ) : Kind ρ :=
  ⟨fun col a b => decide (key a col ≤ key b col), dflt⟩

/-- A minimal concrete kind for witnesses and traces: numeric resources,
numeric sort key, and the base-class no-op `apply_default_sort`. -/
def natKind : Kind Nat := ⟨fun _ a b => decide (a ≤ b), fun l => l⟩

/-- `BaseResourceListWidget.fetch_from_connection_worker`: the per
connection fetch. The body calls
`connection_manager.get_from_connection(connection, resource_type)` (the
Remote Resource Client collaborator, passed here as the oracle
`get_from_connection`) and pairs the result with the connection name. The
body contains no exception handling, so a raising collaborator makes the
whole function raise (an `Except.error` result). -/
def fetch_from_connection_worker {ρ : Type}
    (get_from_connection : SensuConnection → Except String (List ρ))
    (c : SensuConnection) : Except String (String × List ρ) :=
  match get_from_connection c with
  | Except.ok results => Except.ok (c.name, results)
  | Except.error e => Except.error e

/-- Claim C3 as stated: for every collaborator and connection the fetcher
itself returns an outcome value — an exception never propagates out of it. -/
def claimC3 : Prop :=
  ∀ (g : SensuConnection → Except String (List Nat)) (c : SensuConnection),
    ∃ v, fetch_from_connection_worker g c = Except.ok v

/-- The events a full report of per-connection outcomes delivers to
`on_worker_state_changed`, in arrival order: a SUCCESS with the results for
an ok fetch, an ERROR for a raising fetch. -/
def outcomeEvents {ρ : Type}
    (outs : List (String × Except String (List ρ))) : List (GEv ρ) :=
  outs.map (fun p =>
    match p.2 with
    | Except.ok rs => GEv.worker (WorkerOutcome.success p.1 rs)
    | Except.error _ => GEv.worker WorkerOutcome.error)

/-- One full generation on a fresh widget: `load_resources_parallel` over
the listed connections, then every connection's outcome delivered in list
order. -/
def run_generation {ρ : Type} (k : Kind ρ)
    (outs : List (String × Except String (List ρ))) : WState ρ :=
  run_events k (load_resources_parallel initWState (outs.map Prod.fst))
    (outcomeEvents outs)

/-- Modelled from the spec's words for `finalize()` — `degraded: (reported
< expected)`: the number of connections whose outcome was recorded is
smaller than the number expected. -/
def degraded_spec {ρ : Type}
    (outs : List (String × Except String (List ρ))) : Bool :=
  decide (outs.countP (fun p => exceptOk p.2) < outs.length)

/-- Modelled from the spec's words for `finalize()` —
`failed_connections: names with Failure or missing`. -/
def failed_connections_spec {ρ : Type}
    (outs : List (String × Except String (List ρ))) : List String :=
  (outs.filter (fun p => exceptOk p.2 = false)).map Prod.fst

/-- Claim C4 as stated: the finalized widget carries the degraded flag and
the failed-connection names — i.e. they are recoverable from the state the
finalize step produces. -/
def claimC4 : Prop :=
  ∃ (f : WState Nat → Bool) (g : WState Nat → List String),
    ∀ outs : List (String × Except String (List Nat)),
      f (run_generation natKind outs) = degraded_spec outs
      ∧ g (run_generation natKind outs) = failed_connections_spec outs

/-- The spec's concrete scenario: `a` returns 2 items, `b` returns 0
items, `c` raises. -/
def scenA : List (String × Except String (List Nat)) :=
  [("a", Except.ok [7, 8]), ("b", Except.ok []), ("c", Except.error "boom")]

/-- The same scenario with `c` succeeding with 0 items instead of
raising. -/
def scenB : List (String × Except String (List Nat)) :=
  [("a", Except.ok [7, 8]), ("b", Except.ok []), ("c", Except.ok [])]

/-! ## The event list widget (`basil/ui/widgets/events/event_list.py`) -/

/-- An event resource reduced to the row fields `extract_row_data`
computes: entity name, check name, check status (`none` when the event has
no check, giving the `N/A` cell), truncated output, connection name. -/
structure EventRes where
  entity : String
  check : String
  status : Option Int
  output : String
  connection_name : String
  deriving DecidableEq, Repr

/-- `int(str(row_data[2]))` with the 999 fallback used by both
`EventListWidget.apply_default_sort` and `EventListWidget.get_sort_key`:
a missing status renders as `N/A` and falls back to 999. -/
def event_status_int (r : EventRes) : Int :=
  match r.status with
  | some n => n
  | none => 999

/-- The row string of an event for a column index, as built by
`EventListWidget.extract_row_data`. -/
def event_row_str (r : EventRes) : Nat → String
  | 0 => r.entity
  | 1 => r.check
  | 2 =>
    match r.status with
    | some n => toString n
    | none => "N/A"
  | 3 => r.output
  | 4 => r.connection_name
  | _ => ""

/-- Python's `str.lower()`: per-character case folding, the same character
map as `String.toLower` (written over the character list so it reduces). -/
def pyLower (s : String) : String := String.mk (s.toList.map Char.toLower)

/-- The comparison behind `EventListWidget.apply_default_sort`'s
`multi_sort_key`: lexicographic on
`(-status, entity.lower(), check.lower())`. -/
def event_default_le (a b : EventRes) : Bool :=
  decide (Ordering.then
      (compare (-(event_status_int a)) (-(event_status_int b)))
      (Ordering.then (compare (pyLower a.entity) (pyLower b.entity))
        (compare (pyLower a.check) (pyLower b.check))) ≠ Ordering.gt)

/-- `EventListWidget.apply_default_sort`: stable sort of the resources by
the multi key (status descending, then entity, then check). -/
def apply_default_sort_events (l : List EventRes) : List EventRes :=
  List.insertionSort (fun a b => event_default_le a b = true) l

/-- `EventListWidget.get_sort_key` comparison for a column: the Status
column (index 2) compares numerically with the 999 fallback, the other
columns compare the lowercased row strings. -/
def event_key_le (col : Nat) (a b : EventRes) : Bool :=
  if col = 2 then decide (event_status_int a ≤ event_status_int b)
  else decide (compare (pyLower (event_row_str a col))
      (pyLower (event_row_str b col)) ≠ Ordering.gt)

/-- The event list widget's per-kind behaviour. -/
def eventKind : Kind EventRes := ⟨event_key_le, apply_default_sort_events⟩

/-- Claim C5 as stated: for a fixed set of per-connection outcomes the
finalized displayed sequence of the event list does not depend on the
arrival order. -/
def claimC5 : Prop :=
  ∀ outs1 outs2 : List (String × Except String (List EventRes)),
    List.Perm outs1 outs2 →
    (run_generation eventKind outs1).displayed
      = (run_generation eventKind outs2).displayed

/-- Two events identical in every sort-key field (status, entity, check)
but coming from different connections. -/
def ev1 : EventRes := ⟨"web01", "cpu", some 1, "", "a"⟩

/-- The tied twin of `ev1` from connection `b`. -/
def ev2 : EventRes := ⟨"web01", "cpu", some 1, "", "b"⟩

/-! ## The check list widget (`basil/ui/widgets/checks/check_list.py`) -/

/-- A check resource reduced to the row fields of
`CheckListWidget.extract_row_data`: connection, name, command, interval.
`interval = none` models a value whose string form `int()` cannot parse
(including the missing-attribute `N/A`). -/
structure CheckRes where
  connection_name : String
  name : String
  command : String
  interval : Option Int
  deriving DecidableEq, Repr

/-- The row string of a check for a column index
(`CheckListWidget.extract_row_data`; the command is truncated to 30
characters). -/
def check_row_str (r : CheckRes) : Nat → String
  | 0 => r.connection_name
  | 1 => r.name
  | 2 => r.command.take 30
  | 3 =>
    match r.interval with
    | some n => toString n
    | none => "N/A"
  | _ => ""

/-- `CheckListWidget.get_sort_key` for the Interval column (index 3):
`int(str(value))`, with non-numeric or missing values mapped to the
sentinel 999999 "to put them at the end". -/
def check_interval_key (r : CheckRes) : Int :=
  match r.interval with
  | some n => n
  | none => 999999

/-- `CheckListWidget.get_sort_key` comparison for a column: the Interval
column (index 3) compares numerically with the 999999 fallback, the other
columns compare the lowercased row strings. -/
def check_key_le (col : Nat) (a b : CheckRes) : Bool :=
  if col = 3 then decide (check_interval_key a ≤ check_interval_key b)
  else decide (compare (pyLower (check_row_str a col))
      (pyLower (check_row_str b col)) ≠ Ordering.gt)

/-- The check list widget's per-kind behaviour (`CheckListWidget` does not
override `apply_default_sort`, so the base-class no-op applies). -/
def checkKind : Kind CheckRes := ⟨check_key_le, fun l => l⟩

/-- Claim C8 as stated: sorting by a numeric column (check Interval,
event Status) never places a resource with a non-numeric or missing value
before one with a valid numeric value. -/
def claimC8 : Prop :=
  (∀ (l : List CheckRes)
      (i j : Fin (sort_resources checkKind 3 false l).length), i < j →
      ((sort_resources checkKind 3 false l).get i).interval = none →
      ((sort_resources checkKind 3 false l).get j).interval ≠ none → False)
  ∧ (∀ (l : List EventRes)
      (i j : Fin (sort_resources eventKind 2 false l).length), i < j →
      ((sort_resources eventKind 2 false l).get i).status = none →
      ((sort_resources eventKind 2 false l).get j).status ≠ none → False)

/-- A check whose interval is non-numeric (`N/A`), sort key 999999. -/
def chkNA : CheckRes := ⟨"prod", "diskcheck", "df -h", none⟩

/-- A check with the valid numeric interval 1000000, above the sentinel. -/
def chkBig : CheckRes := ⟨"prod", "slowcheck", "du -s /", some 1000000⟩

/-! ## Generations and supersession

The widget runs inside Textual's runtime: each
`fetch_from_connection_worker` call is a thread worker, and a worker's
`StateChanged` message is posted to the widget's message queue when the
worker finishes. `Worker.cancel()` stops a worker that has not finished
(it ends CANCELLED and never produces a SUCCESS message), but it does not
retract a SUCCESS message already posted by a worker that finished
earlier — that message is still delivered later. The trace state tags
workers and queued messages with the generation (the
`load_resources_parallel` call) that spawned them; the tags are ghost
bookkeeping for the specification — `on_worker_state_changed` itself never
sees them and only checks `is_loading`. -/

/-- Trace state: the widget plus the runtime's worker set and message
queue, with ghost generation bookkeeping. `staleMerged` records whether a
message of a superseded generation was ever merged into a newer
generation's accumulator. -/
structure TState (ρ : Type) where
  w : WState ρ
  gen : Nat := 0
  running : List (Nat × String) := []
  queue : List (Nat × String × List ρ) := []
  staleMerged : Bool := false
  deriving DecidableEq, Repr

/-- A trace step: a new `load_resources_parallel` call, a running worker
finishing (posting its SUCCESS message), or the message pump delivering
the oldest queued message to `on_worker_state_changed`. -/
inductive TOp (ρ : Type) where
  | load (connNames : List String)
  | complete (g : Nat) (name : String) (results : List ρ)
  | deliver
  deriving DecidableEq, Repr

/-- One trace step. `load` supersedes: `cancel_workers` cancels the still
running workers (dropped from `running`, so they never post), but already
posted messages stay queued. `deliver` merges whenever the widget is
loading, since the handler has no generation check. -/
def tstep {ρ : Type} (k : Kind ρ) (t : TState ρ) : TOp ρ → TState ρ
  | TOp.load names =>
    { t with w := load_resources_parallel t.w names,
             gen := t.gen + 1,
             running := names.map (fun n => (t.gen + 1, n)) }
  | TOp.complete g n rs =>
    if (g, n) ∈ t.running then
      { t with running := t.running.erase (g, n),
               queue := t.queue ++ [(g, n, rs)] }
    else t
  | TOp.deliver =>
    match t.queue with
    | [] => t
    | (g, n, rs) :: q =>
      { t with queue := q,
               w := on_worker_state_changed k t.w (WorkerOutcome.success n rs),
               staleMerged := t.staleMerged
                 || (t.w.is_loading && decide (g ≠ t.gen)) }

/-- The trace state before any load. -/
def initTState {ρ : Type} : TState ρ := { w := initWState }

/-- Run a trace from the initial state. -/
def run_trace {ρ : Type} (k : Kind ρ) (ops : List (TOp ρ)) : TState ρ :=
  ops.foldl (tstep k) initTState

/-- Claim C2 as stated: no trace ever merges an outcome of a superseded
generation into a newer generation's accumulator. -/
def claimC2 : Prop :=
  ∀ ops : List (TOp Nat), (run_trace natKind ops).staleMerged = false

/-- A trace where worker `a` of generation 1 finishes just before the
second load, so its queued SUCCESS message is delivered while generation 2
is loading. -/
def staleOps : List (TOp Nat) :=
  [TOp.load ["a", "b"], TOp.complete 1 "a" [101, 102], TOp.load ["a", "b"],
   TOp.deliver, TOp.complete 2 "b" [201], TOp.deliver]

/-! ## Lemmas and theorems -/

lemma fetchAccum_sc_zero_iff {α : Type}
    (fetch : SensuConnection → Except String (List α)) :
    ∀ conns, (fetchAccum fetch conns).2.1 = 0 ↔
      ∀ c ∈ conns, exceptOk (fetch c) = false := by
  intro conns
  induction conns with
  | nil => simp [fetchAccum]
  | cons c cs ih =>
    cases h : fetch c with
    | ok items => simp [fetchAccum, h, exceptOk]
    | error e => simp [fetchAccum, h, exceptOk, ih]

lemma fetchAccum_ec_pos {α : Type}
    (fetch : SensuConnection → Except String (List α)) (conns : List SensuConnection)
    (hne : conns ≠ []) (hall : ∀ c ∈ conns, exceptOk (fetch c) = false) :
    0 < (fetchAccum fetch conns).2.2 := by
  cases conns with
  | nil => exact absurd rfl hne
  | cons c cs =>
    have hc : exceptOk (fetch c) = false := hall c (List.mem_cons_self c cs)
    cases h : fetch c with
    | ok items => simp [h, exceptOk] at hc
    | error e => simp [fetchAccum, h]

/-- C1: for a non-empty connection set and a known resource type,
`ConnectionManager.get_all` returns `None` exactly when every connection's
fetch raised, and returns a (possibly empty) wrapped-item list as soon as
one connection succeeds. -/
theorem get_all_total_failure_iff {α : Type}
    (fetch : SensuConnection → Except String (List α))
    (conns : List SensuConnection) (hne : conns ≠ []) :
    (get_all true fetch conns = none ↔ ∀ c ∈ conns, exceptOk (fetch c) = false)
    ∧ ((∃ c ∈ conns, exceptOk (fetch c) = true) →
        ∃ items, get_all true fetch conns = some items) := by
  constructor
  · constructor
    · intro h
      rw [get_all] at h
      simp only [if_true] at h
      by_cases hc : (fetchAccum fetch conns).2.1 = 0 ∧ 0 < (fetchAccum fetch conns).2.2
      · exact (fetchAccum_sc_zero_iff fetch conns).mp hc.1
      · simp [hc] at h
    · intro hall
      rw [get_all]
      simp only [if_true]
      have h1 : (fetchAccum fetch conns).2.1 = 0 :=
        (fetchAccum_sc_zero_iff fetch conns).mpr hall
      have h2 : 0 < (fetchAccum fetch conns).2.2 :=
        fetchAccum_ec_pos fetch conns hne hall
      simp [h1, h2]
  · intro ⟨c, hc, hok⟩
    have hnz : ¬ ((fetchAccum fetch conns).2.1 = 0 ∧ 0 < (fetchAccum fetch conns).2.2) := by
      intro hz
      have := (fetchAccum_sc_zero_iff fetch conns).mp hz.1 c hc
      rw [hok] at this
      simp at this
    rw [get_all]
    simp [hnz]

/-- Witness for C1 at a concrete total-failure input. -/
theorem get_all_total_failure_iff_witness :
    ([(⟨"prod", "default"⟩ : SensuConnection)] ≠ [])
    ∧ get_all true (fun _ => (Except.error "ConnectionError" : Except String (List Nat)))
        [⟨"prod", "default"⟩] = none := by
  refine ⟨by decide, ?_⟩
  exact (get_all_total_failure_iff
    (fun _ => (Except.error "ConnectionError" : Except String (List Nat)))
    [⟨"prod", "default"⟩] (by decide)).1.mpr (by decide)

lemma loadConnectionsGo_cons_skip (acc : List (String × SensuConnection))
    (e : ConnEntry) (rest : List ConnEntry) (h : truthy e.name = false) :
    loadConnectionsGo acc (e :: rest) = loadConnectionsGo acc rest := by
  cases hn : e.name with
  | none => simp [loadConnectionsGo, hn]
  | some n =>
    rw [hn] at h
    simp only [truthy, decide_eq_false_iff_not, not_not] at h
    subst h
    simp [loadConnectionsGo, hn]

lemma loadConnectionsGo_cons_ok (acc : List (String × SensuConnection))
    (e : ConnEntry) (rest : List ConnEntry) (n : String) (conn : SensuConnection)
    (hn : e.name = some n) (hz : n ≠ "") (hm : mkSensuConnection e n = Except.ok conn) :
    loadConnectionsGo acc (e :: rest) = loadConnectionsGo (dictInsert acc n conn) rest := by
  simp [loadConnectionsGo, hn, hz, hm]

lemma loadConnectionsGo_cons_err (acc : List (String × SensuConnection))
    (e : ConnEntry) (rest : List ConnEntry) (n msg : String)
    (hn : e.name = some n) (hz : n ≠ "") (hm : mkSensuConnection e n = Except.error msg) :
    loadConnectionsGo acc (e :: rest) = Except.error msg := by
  simp [loadConnectionsGo, hn, hz, hm]

lemma loadConnectionsGo_filter_named (acc : List (String × SensuConnection)) :
    ∀ entries, loadConnectionsGo acc entries =
      loadConnectionsGo acc (entries.filter (fun e => truthy e.name)) := by
  intro entries
  induction entries generalizing acc with
  | nil => rfl
  | cons e rest ih =>
    rw [List.filter_cons]
    cases ht : truthy e.name with
    | false =>
      simp only [ht, Bool.false_eq_true, if_false]
      rw [loadConnectionsGo_cons_skip acc e rest ht]
      exact ih acc
    | true =>
      simp only [ht, if_true]
      cases hn : e.name with
      | none => rw [hn] at ht; simp [truthy] at ht
      | some n =>
        have hz : n ≠ "" := by
          intro h
          rw [hn, h] at ht
          simp [truthy] at ht
        cases hm : mkSensuConnection e n with
        | ok conn =>
          rw [loadConnectionsGo_cons_ok acc e rest n conn hn hz hm,
            loadConnectionsGo_cons_ok acc e _ n conn hn hz hm]
          exact ih (dictInsert acc n conn)
        | error msg =>
          rw [loadConnectionsGo_cons_err acc e rest n msg hn hz hm,
            loadConnectionsGo_cons_err acc e _ n msg hn hz hm]

lemma loadConnectionsGo_bad_entry_errors (e : ConnEntry)
    (hname : truthy e.name = true) (hkey : truthy e.api_key = false)
    (hcred : ¬(truthy e.username = true ∧ truthy e.password = true)) :
    ∀ entries acc, e ∈ entries →
      ∃ msg, loadConnectionsGo acc entries = Except.error msg := by
  have hmk : ∀ n, ∃ msg, mkSensuConnection e n = Except.error msg := by
    intro n
    rw [mkSensuConnection, if_neg (by simp [hkey])]
    have : (truthy e.username && truthy e.password) = false := by
      cases hu : truthy e.username with
      | false => simp
      | true =>
        cases hp : truthy e.password with
        | false => simp
        | true => exact absurd ⟨hu, hp⟩ hcred
    rw [if_neg (by simp [this])]
    exact ⟨_, rfl⟩
  intro entries
  induction entries with
  | nil => intro acc h; exact absurd h (List.not_mem_nil e)
  | cons e' rest ih =>
    intro acc hmem
    rcases List.mem_cons.mp hmem with heq | hrest
    · subst heq
      cases hn : e.name with
      | none => rw [hn] at hname; simp [truthy] at hname
      | some n =>
        have hz : n ≠ "" := by
          intro h
          rw [hn, h] at hname
          simp [truthy] at hname
        obtain ⟨msg, hmsg⟩ := hmk n
        exact ⟨msg, loadConnectionsGo_cons_err acc e rest n msg hn hz hmsg⟩
    · cases ht : truthy e'.name with
      | false =>
        rw [loadConnectionsGo_cons_skip acc e' rest ht]
        exact ih acc hrest
      | true =>
        cases hn : e'.name with
        | none => rw [hn] at ht; simp [truthy] at ht
        | some n =>
          have hz : n ≠ "" := by
            intro h
            rw [hn, h] at ht
            simp [truthy] at ht
          cases hm : mkSensuConnection e' n with
          | ok conn =>
            rw [loadConnectionsGo_cons_ok acc e' rest n conn hn hz hm]
            exact ih (dictInsert acc n conn) hrest
          | error msg =>
            exact ⟨msg, loadConnectionsGo_cons_err acc e' rest n msg hn hz hm⟩

/-- C10: `_load_connections` silently skips entries with a missing or empty
name (the build equals the build of the name-filtered list), any named entry
without working credentials aborts the whole build with an error, and hence
a successful build can hold fewer connections than the configuration lists
(the two-entry demo configuration yields a single connection). -/
theorem load_connections_skip_unnamed_fail_uncredentialed :
    (∀ entries, loadConnections entries =
        loadConnections (entries.filter (fun e => truthy e.name)))
    ∧ (∀ entries (e : ConnEntry), e ∈ entries → truthy e.name = true →
        truthy e.api_key = false →
        ¬(truthy e.username = true ∧ truthy e.password = true) →
        ∃ msg, loadConnections entries = Except.error msg)
    ∧ (loadConnections demoEntries =
        Except.ok [("dev", ⟨"dev", "default"⟩)] ∧ demoEntries.length = 2) := by
  refine ⟨fun entries => loadConnectionsGo_filter_named [] entries,
    fun entries e hmem hn hk hc =>
      loadConnectionsGo_bad_entry_errors e hn hk hc entries [] hmem,
    rfl, rfl⟩

/-- Witness for C10: a named entry with neither api key nor username and
password aborts the build of a concrete configuration. -/
theorem load_connections_skip_unnamed_fail_uncredentialed_witness :
    ∃ msg, loadConnections
        [{ name := some "prod", url := some "https://sensu.example.com" }] =
      Except.error msg := by
  exact load_connections_skip_unnamed_fail_uncredentialed.2.1
    [{ name := some "prod", url := some "https://sensu.example.com" }]
    { name := some "prod", url := some "https://sensu.example.com" }
    (by decide) (by decide) (by decide) (by decide)

lemma load_resources_pending {ρ : Type} (k : Kind ρ) (s : WState ρ)
    (d : List ρ) : (load_resources k s d).pending_results = s.pending_results := by
  rw [load_resources]
  split
  · rfl
  · split <;> rfl

lemma load_resources_is_loading {ρ : Type} (k : Kind ρ) (s : WState ρ)
    (d : List ρ) : (load_resources k s d).is_loading = s.is_loading := by
  rw [load_resources]
  split
  · rfl
  · split <;> rfl

lemma finalize_load_is_loading {ρ : Type} (k : Kind ρ) (s : WState ρ) :
    (finalize_load k s).is_loading = false := rfl

lemma mem_dictInsert_keys {β : Type} (l : List (String × β)) (key : String)
    (v : β) (n : String) (h : n ∈ l.map Prod.fst) :
    n ∈ (dictInsert l key v).map Prod.fst := by
  induction l with
  | nil => simp at h
  | cons p rest ih =>
    rw [dictInsert]
    by_cases hk : p.1 = key
    · rcases p with ⟨k', v'⟩
      simp only at hk
      simp only [hk, if_pos rfl]
      simpa [hk] using h
    · rcases p with ⟨k', v'⟩
      simp only at hk
      simp only [if_neg hk, List.map_cons]
      rcases List.mem_cons.mp h with h1 | h2
      · exact List.mem_cons.mpr (Or.inl h1)
      · exact List.mem_cons.mpr (Or.inr (ih h2))

lemma gstep_pending_mono {ρ : Type} (k : Kind ρ) (s : WState ρ) (e : GEv ρ)
    (hl : (gstep k s e).is_loading = true) :
    ∀ n, n ∈ pending_conns s → n ∈ pending_conns (gstep k s e) := by
  intro n hn
  cases e with
  | worker o =>
    cases o with
    | success n' rs =>
      by_cases hs : s.is_loading = true
      · rw [gstep, on_worker_state_changed] at hl ⊢
        rw [if_pos hs] at hl ⊢
        dsimp only at hl ⊢
        by_cases hfin : s.expected_worker_count ≤ s.completed_worker_count + 1
        · rw [if_pos hfin] at hl
          rw [finalize_load_is_loading] at hl
          exact absurd hl (by simp)
        · rw [if_neg hfin] at hl ⊢
          by_cases hb : s.batch_timer = true
          · rw [if_pos hb]
            simpa [pending_conns] using
              mem_dictInsert_keys s.pending_results n' rs n hn
          · rw [if_neg hb]
            simpa [pending_conns] using
              mem_dictInsert_keys s.pending_results n' rs n hn
      · simpa [gstep, on_worker_state_changed, hs] using hn
    | error =>
      by_cases hs : s.is_loading = true
      · rw [gstep, on_worker_state_changed] at hl ⊢
        rw [if_pos hs] at hl ⊢
        dsimp only at hl ⊢
        by_cases hfin : s.expected_worker_count ≤ s.completed_worker_count + 1
        · rw [if_pos hfin] at hl
          rw [finalize_load_is_loading] at hl
          exact absurd hl (by simp)
        · rw [if_neg hfin]
          simpa [pending_conns] using hn
      · simpa [gstep, on_worker_state_changed, hs] using hn
  | flushTimer =>
    rw [gstep, flush_updates]
    by_cases hs : s.is_loading = true
    · rw [if_pos hs]
      simpa [pending_conns, load_resources_pending] using hn
    · simp only [hs, if_neg]
      simpa [pending_conns] using hn
  | timeout =>
    rw [gstep, timeout_handler] at hl ⊢
    by_cases hs : s.is_loading = true
    · rw [if_pos hs] at hl
      rw [finalize_load_is_loading] at hl
      exact absurd hl (by simp)
    · rw [if_neg hs]
      exact hn

lemma gstep_not_loading {ρ : Type} (k : Kind ρ) (s : WState ρ) (e : GEv ρ)
    (h : s.is_loading = false) : (gstep k s e).is_loading = false := by
  cases e with
  | worker o =>
    cases o with
    | success n rs => simp [gstep, on_worker_state_changed, h]
    | error => simp [gstep, on_worker_state_changed, h]
  | flushTimer => simp [gstep, flush_updates, h]
  | timeout => simp [gstep, timeout_handler, h]

lemma run_events_not_loading {ρ : Type} (k : Kind ρ) :
    ∀ (evs : List (GEv ρ)) (s : WState ρ), s.is_loading = false →
      (run_events k s evs).is_loading = false := by
  intro evs
  induction evs with
  | nil => intro s h; exact h
  | cons e rest ih =>
    intro s h
    rw [run_events, List.foldl_cons]
    exact ih (gstep k s e) (gstep_not_loading k s e h)

/-- C6: within one generation the accumulator only grows: as long as a run
of delivered events has not ended the generation (the widget is still
loading at the end, so every flush in between belongs to the same
generation), every connection represented in the accumulator before the
events is still represented after them. -/
theorem accumulator_monotone {ρ : Type} (k : Kind ρ) (s : WState ρ)
    (evs : List (GEv ρ)) (hafter : (run_events k s evs).is_loading = true) :
    ∀ n, n ∈ pending_conns s → n ∈ pending_conns (run_events k s evs) := by
  induction evs generalizing s with
  | nil => intro n hn; exact hn
  | cons e rest ih =>
    intro n hn
    rw [run_events, List.foldl_cons] at hafter ⊢
    have hstep : (gstep k s e).is_loading = true := by
      by_contra hfalse
      have hf : (gstep k s e).is_loading = false := by
        cases h : (gstep k s e).is_loading
        · rfl
        · exact absurd h hfalse
      have hrest := run_events_not_loading k rest (gstep k s e) hf
      rw [run_events] at hrest
      rw [hrest] at hafter
      exact absurd hafter (by simp)
    exact ih (gstep k s e) hafter n (gstep_pending_mono k s e hstep n hn)

/-- Witness for C6: a concrete three-connection generation where one more
success arrives and the connection already represented stays represented. -/
theorem accumulator_monotone_witness :
    ((run_events natKind
        { initWState with pending_results := [("a", [1])], is_loading := true,
                          expected_worker_count := 3, completed_worker_count := 1 }
        [GEv.worker (WorkerOutcome.success "b" [2])]).is_loading = true)
    ∧ "a" ∈ pending_conns (run_events natKind
        { initWState with pending_results := [("a", [1])], is_loading := true,
                          expected_worker_count := 3, completed_worker_count := 1 }
        [GEv.worker (WorkerOutcome.success "b" [2])]) := by
  refine ⟨by decide, ?_⟩
  exact accumulator_monotone natKind
    { initWState with pending_results := [("a", [1])], is_loading := true,
                      expected_worker_count := 3, completed_worker_count := 1 }
    [GEv.worker (WorkerOutcome.success "b" [2])] (by decide) "a" (by decide)

/-- C9: calling `load_resources` a second time with the same data and the
sort state left by the first call shows the identical row sequence. -/
theorem load_resources_reload_idempotent {ρ : Type} (k : Kind ρ)
    (s : WState ρ) (d : List ρ) :
    (load_resources k (load_resources k s d) d).displayed =
      (load_resources k s d).displayed := by
  by_cases hu : s.using_default_sort = true
  · simp [load_resources, hu]
  · have hu' : s.using_default_sort = false := by
      cases h : s.using_default_sort
      · rfl
      · exact absurd h hu
    cases hc : s.sort_column with
    | some col => simp [load_resources, hu', hc]
    | none => simp [load_resources, hu', hc]

lemma sorted_keyed_insertionSort {ρ κ : Type} [LinearOrder κ] (f : ρ → κ)
    (l : List ρ) :
    List.Sorted (fun a b => f a ≤ f b)
      (List.insertionSort (fun a b => decide (f a ≤ f b) = true) l) := by
  haveI : IsTotal ρ (fun a b => decide (f a ≤ f b) = true) := ⟨fun a b => by
    rcases le_total (f a) (f b) with h | h
    · exact Or.inl (by simpa using h)
    · exact Or.inr (by simpa using h)⟩
  haveI : IsTrans ρ (fun a b => decide (f a ≤ f b) = true) := ⟨fun a b c hab hbc => by
    simp only [decide_eq_true_eq] at hab hbc ⊢
    exact le_trans hab hbc⟩
  have h := List.sorted_insertionSort (fun a b => decide (f a ≤ f b) = true) l
  exact h.imp (fun hab => by simpa using hab)

/-- C7: a header click on the active column flips the direction; a click on
a different column pins the clicked column, ascending, and leaves
default-sort mode; this pinned state persists through a subsequent
`load_resources` of any data (for example a superset of the old data), whose
displayed rows are then a permutation of the new data sorted by the pinned
column's key in the active direction — new items interleaved, not
appended. -/
theorem user_sort_pins_and_persists {ρ κ : Type} [LinearOrder κ]
    (key : ρ → Nat → κ) (dflt : List ρ → List ρ) (s : WState ρ) (X : Nat)
    (d : List ρ) :
    ((on_data_table_header_selected (keyedKind key dflt) s X).sort_column = some X)
    ∧ (s.sort_column = some X →
        (on_data_table_header_selected (keyedKind key dflt) s X).sort_reverse
          = !s.sort_reverse)
    ∧ (s.sort_column ≠ some X →
        (on_data_table_header_selected (keyedKind key dflt) s X).sort_reverse = false
        ∧ (on_data_table_header_selected (keyedKind key dflt) s X).using_default_sort
            = false
        ∧ List.Perm (load_resources (keyedKind key dflt)
            (on_data_table_header_selected (keyedKind key dflt) s X) d).displayed d
        ∧ List.Sorted (fun a b => key a X ≤ key b X)
            (load_resources (keyedKind key dflt)
              (on_data_table_header_selected (keyedKind key dflt) s X) d).displayed) := by
  by_cases hc : s.sort_column = some X
  · refine ⟨?_, fun _ => ?_, fun hne => absurd hc hne⟩
    · simp [on_data_table_header_selected, load_resources, hc]
    · simp [on_data_table_header_selected, load_resources, hc]
  · have hdisp : (load_resources (keyedKind key dflt)
        (on_data_table_header_selected (keyedKind key dflt) s X) d).displayed
          = List.insertionSort (fun a b => decide (key a X ≤ key b X) = true) d := by
      simp [on_data_table_header_selected, load_resources, hc, sort_resources,
        pySortRel, keyedKind]
    refine ⟨?_, fun heq => absurd heq hc, fun _ => ⟨?_, ?_, ?_, ?_⟩⟩
    · simp [on_data_table_header_selected, load_resources, hc]
    · simp [on_data_table_header_selected, load_resources, hc]
    · simp [on_data_table_header_selected, load_resources, hc]
    · rw [hdisp]
      exact List.perm_insertionSort (fun a b => decide (key a X ≤ key b X) = true) d
    · rw [hdisp]
      exact sorted_keyed_insertionSort (fun r => key r X) d

/-- Witness for C7: a fresh numeric widget, header click on column 0, then
a reload with data `[3, 1, 2]` shows it sorted ascending. -/
theorem user_sort_pins_and_persists_witness :
    ((initWState : WState Nat).sort_column ≠ some 0)
    ∧ List.Sorted (fun a b : Nat => a ≤ b)
        (load_resources (keyedKind (fun (r : Nat) (_ : Nat) => r) id)
          (on_data_table_header_selected (keyedKind (fun (r : Nat) (_ : Nat) => r) id)
            initWState 0) [3, 1, 2]).displayed := by
  refine ⟨by decide, ?_⟩
  exact ((user_sort_pins_and_persists (fun (r : Nat) (_ : Nat) => r) id initWState 0
    [3, 1, 2]).2.2 (by decide)).2.2.2

/-- Counterexample to C3: a raising collaborator makes
`fetch_from_connection_worker` itself propagate the exception. -/
theorem fetcher_catches_exceptions_false : ¬ claimC3 := by
  intro h
  obtain ⟨v, hv⟩ := h (fun _ => Except.error "ConnectionError")
    ⟨"prod", "default"⟩
  simp [fetch_from_connection_worker] at hv

/-- C3 amended: the fetcher does not catch collaborator exceptions — it
propagates them unchanged (and wraps successes with the connection name);
the conversion to data happens outside it: the worker framework reports
`WorkerState.ERROR`, and `on_worker_state_changed` absorbs that at the
orchestrator level by logging and counting the worker, recording no
outcome in the accumulator. -/
theorem fetcher_propagates_orchestrator_absorbs {ρ : Type} (k : Kind ρ) :
    (∀ (g : SensuConnection → Except String (List ρ)) (c : SensuConnection)
        (e : String), g c = Except.error e →
        fetch_from_connection_worker g c = Except.error e)
    ∧ (∀ (g : SensuConnection → Except String (List ρ)) (c : SensuConnection)
        (rs : List ρ), g c = Except.ok rs →
        fetch_from_connection_worker g c = Except.ok (c.name, rs))
    ∧ (∀ s : WState ρ, s.is_loading = true →
        ¬(s.expected_worker_count ≤ s.completed_worker_count + 1) →
        on_worker_state_changed k s WorkerOutcome.error
          = { s with completed_worker_count := s.completed_worker_count + 1 }) := by
  refine ⟨fun g c e h => by simp [fetch_from_connection_worker, h],
    fun g c rs h => by simp [fetch_from_connection_worker, h],
    fun s hs hfin => by simp [on_worker_state_changed, hs, hfin]⟩

/-- Witness for the amended C3 at concrete inputs. -/
theorem fetcher_propagates_orchestrator_absorbs_witness :
    fetch_from_connection_worker
        (fun _ => (Except.error "ConnectionError" : Except String (List Nat)))
        ⟨"prod", "default"⟩ = Except.error "ConnectionError"
    ∧ on_worker_state_changed natKind
        { initWState with is_loading := true, expected_worker_count := 3,
                          completed_worker_count := 1 } WorkerOutcome.error
      = { initWState with is_loading := true, expected_worker_count := 3,
                          completed_worker_count := 2 } := by
  constructor
  · exact (fetcher_propagates_orchestrator_absorbs natKind).1
      (fun _ => Except.error "ConnectionError") ⟨"prod", "default"⟩
      "ConnectionError" rfl
  · exact (fetcher_propagates_orchestrator_absorbs natKind).2.2
      { initWState with is_loading := true, expected_worker_count := 3,
                        completed_worker_count := 1 } rfl (by decide)

/-- Counterexample to C4: the finalized widget state is bit-for-bit
identical whether `c` raised (degraded per the spec, failed list `["c"]`)
or returned zero items (healthy), so no degraded flag or failed list is
computed or carried. -/
theorem finalize_degraded_flag_false : ¬ claimC4 := by
  intro ⟨f, g, h⟩
  have hA := (h scenA).1
  have hB := (h scenB).1
  have heq : run_generation natKind scenA = run_generation natKind scenB := by
    decide
  rw [heq] at hA
  have hcontra : degraded_spec scenA = degraded_spec scenB := by
    rw [← hA, ← hB]
  exact absurd hcontra (by decide)

/-- C4 amended: on the spec's scenario finalize displays exactly the two
items of `a` (with `c`'s failure neither aborting nor recorded anywhere):
the code computes no degraded flag and no failed-connections list — the
finalized state equals the one of the all-healthy variant, even though the
spec-side degraded flag and failed list differ between the two. -/
theorem finalize_combines_successes_no_degraded_info :
    (run_generation natKind scenA).displayed = [7, 8]
    ∧ run_generation natKind scenA = run_generation natKind scenB
    ∧ degraded_spec scenA = true ∧ degraded_spec scenB = false
    ∧ failed_connections_spec scenA = ["c"]
    ∧ failed_connections_spec scenB = [] := by
  decide

/-- Counterexample to C5: with two tied events the stable default sort
keeps accumulation (arrival) order, so the two arrival orders display
different sequences. -/
theorem arrival_order_independence_false : ¬ claimC5 := by
  intro h
  have hp : List.Perm
      [("a", Except.ok [ev1]), ("b", Except.ok [ev2])]
      [("b", (Except.ok [ev2] : Except String (List EventRes))),
       ("a", Except.ok [ev1])] :=
    List.Perm.swap _ _ _
  have hd := h _ _ hp
  have hA : (run_generation eventKind
      [("a", Except.ok [ev1]), ("b", Except.ok [ev2])]).displayed
        = [ev1, ev2] := by decide
  have hB : (run_generation eventKind
      [("b", Except.ok [ev2]), ("a", Except.ok [ev1])]).displayed
        = [ev2, ev1] := by decide
  rw [hA, hB] at hd
  exact absurd hd (by decide)

lemma flatten_perm_of_perm {α : Type} {l₁ l₂ : List (List α)}
    (h : l₁.Perm l₂) : l₁.flatten.Perm l₂.flatten := by
  induction h with
  | nil => exact List.Perm.refl _
  | cons x _ ih => simpa using ih.append_left x
  | swap x y l =>
    simp only [List.flatten_cons, ← List.append_assoc]
    exact List.Perm.append_right _ List.perm_append_comm
  | trans _ _ ih1 ih2 => exact ih1.trans ih2

lemma combineResults_eq_flatten_aux {ρ : Type}
    (p : List (String × List ρ)) : ∀ acc : List ρ,
      p.foldl (fun a x => a ++ x.2) acc = acc ++ (p.map Prod.snd).flatten := by
  induction p with
  | nil => intro acc; simp
  | cons q rest ih =>
    intro acc
    rw [List.foldl_cons, ih]
    simp [List.append_assoc]

lemma combineResults_eq_flatten {ρ : Type} (p : List (String × List ρ)) :
    combineResults p = (p.map Prod.snd).flatten := by
  simpa using combineResults_eq_flatten_aux p []

/-- C5 amended: the finalized display is the stable default sort of the
results concatenated in arrival order — so for a fixed outcome set any two
arrival orders display the same multiset — but resources with equal sort
keys keep accumulation order, which is why the sequence itself can differ
between arrival orders (as the counterexample's tied events show). -/
theorem finalize_order_up_to_ties :
    (∀ p q : List (String × List EventRes), List.Perm p q →
        List.Perm
          (finalize_load eventKind
            { initWState with pending_results := p, is_loading := true }).displayed
          (finalize_load eventKind
            { initWState with pending_results := q, is_loading := true }).displayed)
    ∧ (∀ p : List (String × List EventRes),
        (finalize_load eventKind
          { initWState with pending_results := p, is_loading := true }).displayed
          = apply_default_sort_events (combineResults p)) := by
  have hdisp : ∀ p : List (String × List EventRes),
      (finalize_load eventKind
        { initWState with pending_results := p, is_loading := true }).displayed
        = apply_default_sort_events (combineResults p) := fun p => rfl
  refine ⟨fun p q hpq => ?_, hdisp⟩
  rw [hdisp p, hdisp q]
  have hc : (combineResults p).Perm (combineResults q) := by
    rw [combineResults_eq_flatten, combineResults_eq_flatten]
    exact flatten_perm_of_perm (hpq.map Prod.snd)
  exact ((List.perm_insertionSort _ _).trans hc).trans
    (List.perm_insertionSort _ _).symm

/-- Witness for the amended C5: the two tied-event arrival orders display
permutations of each other. -/
theorem finalize_order_up_to_ties_witness :
    List.Perm
      (finalize_load eventKind
        { initWState with pending_results := [("a", [ev1]), ("b", [ev2])],
                          is_loading := true }).displayed
      (finalize_load eventKind
        { initWState with pending_results := [("b", [ev2]), ("a", [ev1])],
                          is_loading := true }).displayed := by
  exact finalize_order_up_to_ties.1 [("a", [ev1]), ("b", [ev2])]
    [("b", [ev2]), ("a", [ev1])] (List.Perm.swap _ _ _)

/-- Counterexample to C8: a valid interval of 1000000 exceeds the 999999
sentinel, so the non-numeric check sorts before it. -/
theorem numeric_sort_nonnumeric_last_false : ¬ claimC8 := by
  intro h
  exact h.1 [chkNA, chkBig] ⟨0, by decide⟩ ⟨1, by decide⟩ (by decide)
    (by decide) (by decide)

/-- C8 amended: non-numeric or missing values are mapped to fixed
sentinels (999999 for the check Interval column, 999 for the event Status
column), so a non-numeric resource is placed after every resource whose
numeric value is below the sentinel — if a non-numeric resource precedes a
valid one, that value is at least the sentinel. The order is the
deterministic stable sort by these keys. -/
theorem numeric_sort_sentinel :
    (∀ (l : List CheckRes)
        (i j : Fin (sort_resources checkKind 3 false l).length), i < j →
        ((sort_resources checkKind 3 false l).get i).interval = none →
        ∀ v, ((sort_resources checkKind 3 false l).get j).interval = some v →
          (999999 : Int) ≤ v)
    ∧ (∀ (l : List EventRes)
        (i j : Fin (sort_resources eventKind 2 false l).length), i < j →
        ((sort_resources eventKind 2 false l).get i).status = none →
        ∀ v, ((sort_resources eventKind 2 false l).get j).status = some v →
          (999 : Int) ≤ v) := by
  constructor
  · intro l i j hij hi v hj
    have href : sort_resources checkKind 3 false l
        = List.insertionSort
            (fun a b => decide (check_interval_key a ≤ check_interval_key b) = true)
            l := rfl
    have hsorted :
        List.Sorted (fun a b => check_interval_key a ≤ check_interval_key b)
          (sort_resources checkKind 3 false l) := by
      rw [href]
      exact sorted_keyed_insertionSort check_interval_key l
    have hrel := hsorted.rel_get_of_lt hij
    rw [check_interval_key, check_interval_key, hi, hj] at hrel
    exact hrel
  · intro l i j hij hi v hj
    have href : sort_resources eventKind 2 false l
        = List.insertionSort
            (fun a b => decide (event_status_int a ≤ event_status_int b) = true)
            l := rfl
    have hsorted :
        List.Sorted (fun a b => event_status_int a ≤ event_status_int b)
          (sort_resources eventKind 2 false l) := by
      rw [href]
      exact sorted_keyed_insertionSort event_status_int l
    have hrel := hsorted.rel_get_of_lt hij
    rw [event_status_int, event_status_int, hi, hj] at hrel
    exact hrel

/-- Witness for the amended C8 at a concrete input: the non-numeric check
sorts first and the valid value after it is at least the sentinel. -/
theorem numeric_sort_sentinel_witness :
    ((sort_resources checkKind 3 false [chkBig, chkNA]).get
        ⟨0, by decide⟩).interval = none
    ∧ (999999 : Int) ≤ 1000000 := by
  refine ⟨by decide, ?_⟩
  exact numeric_sort_sentinel.1 [chkBig, chkNA] ⟨0, by decide⟩ ⟨1, by decide⟩
    (by decide) (by decide) 1000000 (by decide)

/-- Counterexample to C2: on `staleOps` the first generation's outcome for
`a` is merged into the second generation's accumulator (it even counts
toward its completion) and the items 101, 102 of generation 1 appear in
the display finalized by generation 2. -/
theorem supersession_discard_false :
    ¬ claimC2
    ∧ (run_trace natKind staleOps).w.displayed = [101, 102, 201] := by
  constructor
  · intro h
    exact absurd (h staleOps) (by decide)
  · decide

/-- C2 amended: a second `load_resources_parallel` cancels the first
generation's still-running workers (which then never post a result), and
any worker outcome delivered while no load is in flight is discarded by
the `is_loading` guard; but a superseded worker that already finished has
its queued success merged into the second generation's accumulator, since
`on_worker_state_changed` carries no generation check. -/
theorem late_outcomes_discarded_when_idle {ρ : Type} (k : Kind ρ) :
    (∀ (s : WState ρ) (o : WorkerOutcome ρ), s.is_loading = false →
        on_worker_state_changed k s o = s)
    ∧ (∀ (t : TState ρ) (g : Nat) (n : String) (rs : List ρ),
        (g, n) ∉ t.running → tstep k t (TOp.complete g n rs) = t) := by
  constructor
  · intro s o hs
    cases o with
    | success n rs => simp [on_worker_state_changed, hs]
    | error => simp [on_worker_state_changed, hs]
  · intro t g n rs h
    simp [tstep, h]

/-- Witness for the amended C2 at concrete inputs. -/
theorem late_outcomes_discarded_when_idle_witness :
    on_worker_state_changed natKind initWState
        (WorkerOutcome.success "a" [1]) = initWState
    ∧ tstep natKind initTState (TOp.complete 1 "a" [1]) = initTState := by
  constructor
  · exact (late_outcomes_discarded_when_idle natKind).1 initWState
      (WorkerOutcome.success "a" [1]) rfl
  · exact (late_outcomes_discarded_when_idle natKind).2 initTState 1 "a" [1]
      (by decide)

end Basil
